import Mathlib

/-!
Shallow embedding of the ECG classification API (`src/main.py`) and proofs
about its request-to-prediction pipeline: upload validation, transient
staging, waveform reading, per-lead normalization, descriptive statistics
and the error-mapping of the request handler.

The numeric layer (normalization, statistics) is embedded over `ℝ`, with
waveforms as lists of rows (leads).  The request layer (validation, the
`predict_file` handler, the global exception handler) is embedded as
computable functions; the external collaborators (the `wfdb` reader and the
model's `predict`) are parameters of the handler, and raising an exception
is modelled by `Except.error`.
-/

/-! ## Configuration (class `Config` in main.py) -/

/-- `Config.ALLOWED_EXTENSIONS = {".dat", ".hea"}`.  The Python `set` is
modelled as a list; only membership and subset tests are performed on it. -/
def ALLOWED_EXTENSIONS : List String := [".dat", ".hea"]

/-- `Config.MAX_FILE_SIZE = 10 * 1024 * 1024` (10 MiB). -/
def MAX_FILE_SIZE : Nat := 10 * 1024 * 1024

/-! ## Uploaded files

An `UploadFile` carries the client-declared filename, the declared size
(`UploadFile.size` is optional in Starlette, hence `Option Nat`; `none`
models Python `None`) and the actual byte content of the upload. -/

structure UFile where
  filename : String
  size : Option Nat
  content : List Nat
deriving Repr, DecidableEq

/-- Index (from the front) of the last `'.'` in a character list, if any. -/
def revFindDot : List Char → Option Nat
  | [] => none
  | c :: t =>
      match revFindDot t with
      | some i => some (i + 1)
      | none => if c = '.' then some 0 else none

/-- `pathlib.Path(name).suffix`: the final extension including the dot;
empty unless the last `'.'` sits strictly inside the name (pathlib keeps
`name[i:]` only when `0 < i < len(name) - 1`). -/
def pathSuffix (s : String) : String :=
  match revFindDot s.data with
  | none => ""
  | some i =>
      if 0 < i ∧ i + 1 < s.data.length then String.mk (s.data.drop i) else ""

/-- `pathlib.Path(name).stem`: the name with its suffix removed. -/
def pathStem (s : String) : String :=
  String.mk (s.data.take (s.data.length - (pathSuffix s).data.length))

/-- Python `str.lower()`, character by character. -/
def strLower (s : String) : String :=
  String.mk (s.data.map Char.toLower)

/-- A raised `HTTPException`, as (status code, detail string). -/
abbrev HErr := Nat × String

/-! ## File validator (`validate_files`, main.py lines 76-97)

The three stages of the single Python function are split into one
definition each (empty check, extension check, size loop); `validate_files`
chains them in the source's order, returning the first raised
`HTTPException` (`none` = the function returned without raising). -/

/-- `if not files: raise HTTPException(400, "No files uploaded")`. -/
def empty_check (files : List UFile) : Option HErr :=
  if files.isEmpty then some (400, "No files uploaded") else none

/-- Detail string of the extension rejection
(`f"Please upload files with extensions: {', '.join(ALLOWED_EXTENSIONS)}"`). -/
def extDetail : String :=
  "Please upload files with extensions: " ++ String.intercalate ", " ALLOWED_EXTENSIONS

/-- Lines 84-90: build the set of lower-cased suffixes; if the allowed set is
not a subset of `extensions | {ext for ext in extensions}` (which is just
`extensions` again) and no uploaded extension is allowed, raise 400. -/
def extension_check (files : List UFile) : Option HErr :=
  let extensions := files.map (fun f => strLower (pathSuffix f.filename))
  if !(ALLOWED_EXTENSIONS.all (fun e => e ∈ extensions ++ extensions)) then
    if !(extensions.any (fun e => e ∈ ALLOWED_EXTENSIONS)) then
      some (400, extDetail)
    else none
  else none

/-- Python truthiness of `file.size` in `if file.size and file.size > MAX`:
`None` and `0` are falsy, so the size comparison is short-circuited away. -/
def sizeTruthy : Option Nat → Bool
  | none => false
  | some n => n ≠ 0

/-- The loop body's condition `file.size and file.size > config.MAX_FILE_SIZE`. -/
def oversized (f : UFile) : Bool :=
  sizeTruthy f.size && f.size.getD 0 > MAX_FILE_SIZE

/-- Detail string of the 413 rejection
(`f"File {file.filename} is too large. Max size: {MAX // (1024*1024)}MB"`). -/
def sizeDetail (f : UFile) : String :=
  "File " ++ f.filename ++ " is too large. Max size: "
    ++ toString (MAX_FILE_SIZE / (1024 * 1024)) ++ "MB"

/-- Lines 92-97: the `for file in files` loop raises 413 at the first file
whose declared size is truthy and exceeds the cap. -/
def size_check (files : List UFile) : Option HErr :=
  match files.find? oversized with
  | some f => some (413, sizeDetail f)
  | none => none

/-- `validate_files` (main.py lines 76-97): empty check, then extension
check, then the size loop; the first raised exception wins. -/
def validate_files (files : List UFile) : Option HErr :=
  match empty_check files with
  | some e => some e
  | none =>
      match extension_check files with
      | some e => some e
      | none => size_check files

/-! ## Response and error shapes (main.py lines 62-73, 110-203)

FastAPI renders a raised `HTTPException` with its default handler as a JSON
body holding only the `detail` string (`httpError` below); the app-level
`global_exception_handler` instead returns a `JSONResponse` whose body is a
full `ErrorResponse` (`envelope` below).  A successful request returns a
`PredictionResponse` (`ok` below); its prediction and statistics payloads
are type parameters of the embedding, since the handler only passes them
through. -/

structure ErrorResponse where
  success : Bool
  error : String
  detail : String
deriving Repr, DecidableEq

inductive ApiResp (P S : Type) where
  | ok (pred : P) (stats : S) (message : String)
  | httpError (status : Nat) (detail : String)
  | envelope (status : Nat) (body : ErrorResponse)
deriving DecidableEq

/-- HTTP status of a response. -/
def ApiResp.statusOf {P S : Type} : ApiResp P S → Nat
  | .ok _ _ _ => 200
  | .httpError c _ => c
  | .envelope c _ => c

/-- The `detail` string carried by an error response (`none` on success). -/
def ApiResp.detailOf {P S : Type} : ApiResp P S → Option String
  | .ok _ _ _ => none
  | .httpError _ d => some d
  | .envelope _ b => some b.detail

/-- The full `success/error/detail` envelope, present only on responses
built from an `ErrorResponse` model (the global handler's path). -/
def ApiResp.errorEnvelope {P S : Type} : ApiResp P S → Option ErrorResponse
  | .envelope _ b => some b
  | _ => none

/-- `global_exception_handler` (main.py lines 192-203): any exception that
escapes a route handler is logged and mapped to a fixed, redacted 500
envelope; the exception's own message never reaches the body. -/
def global_exception_handler {P S : Type} (_exc : String) : ApiResp P S :=
  .envelope 500 ⟨false, "Internal server error", "An unexpected error occurred"⟩

/-- The record identifier handed to the reader (main.py lines 141-143):
the stem of the first uploaded filename. -/
def record_base (files : List UFile) : String :=
  pathStem ((files.headD ⟨"", none, []⟩).filename)

/-- `predict_ecg_file` (main.py lines 120-190).

The filesystem of temporary directories is modelled as a list of
directories, each a list of the filenames written into it; `with
tempfile.TemporaryDirectory()` pushes a fresh directory on entry and is
guaranteed to remove it on every exit, normal or exceptional.  External
collaborators are parameters: `readRecord` models `wfdb.rdrecord` (plus the
transpose) on the staged record path, `normalizeF` the normalization,
`predictF` the model's `predict`, `statsF` `calculate_ecg_stats`; an
`Except.error` models the collaborator raising, and the string is the
exception's message.

Control flow of the source: a raised `HTTPException` is re-raised verbatim
(`except HTTPException: raise`) and rendered by FastAPI as a detail-only
body; any other exception is caught and re-raised as
`HTTPException(500, f"Internal server error: {str(e)}")`. -/
def predict_ecg_file {W P S : Type} (files : List UFile)
    (readRecord : String → Except String W)
    (normalizeF : W → W)
    (predictF : W → Except String P)
    (statsF : W → S)
    (fs : List (List String)) : ApiResp P S × List (List String) :=
  match validate_files files with
  | some (c, d) => (.httpError c d, fs)
  | none =>
      -- with tempfile.TemporaryDirectory() as tmpdirname:
      --   each upload's bytes are written to tmpdirname/<filename>
      let dir : List String := files.map (fun f => f.filename)
      let fsStaged := dir :: fs
      -- record = wfdb.rdrecord(record_path); ecg_data = record.p_signal.T
      match readRecord (record_base files) with
      | .error e =>
          -- HTTPException(400, f"Failed to read ECG files: {str(e)}") unwinds
          -- through the with-block (directory removed) and is re-raised
          (.httpError 400 ("Failed to read ECG files: " ++ e), fsStaged.tail)
      | .ok ecg_data =>
          let ecg_normalized := normalizeF ecg_data
          match predictF ecg_normalized with
          | .error e =>
              -- an unexpected exception unwinds through the with-block and is
              -- caught by `except Exception`, becoming a 500 HTTPException
              -- whose detail embeds str(e)
              (.httpError 500 ("Internal server error: " ++ e), fsStaged.tail)
          | .ok result =>
              (.ok result (statsF ecg_data)
                 "ECG classification completed successfully", fsStaged.tail)

/-! ## Numeric layer: normalization and statistics (main.py lines 99-108, 156-159)

A waveform is a list of leads (rows), each a list of real samples, embedding
the numpy array `ecg_data` of shape `(num_leads, signal_length)`.  numpy's
`mean` is the sum over the count; `std` is the population standard
deviation, the square root of the mean squared deviation. -/

/-- `np.mean` of a one-dimensional array. -/
noncomputable def lmean (xs : List ℝ) : ℝ := xs.sum / xs.length

/-- `np.std` (population, ddof = 0) of a one-dimensional array. -/
noncomputable def lstd (xs : List ℝ) : ℝ :=
  Real.sqrt (lmean (xs.map (fun x => (x - lmean xs) ^ 2)))

/-- The epsilon of the normalization denominator, fixed at `1e-8` in the
source (line 158). -/
noncomputable def eps : ℝ := 1 / 10 ^ 8

/-- One row of `(ecg_data - ecg_data.mean(axis=1, keepdims=True)) /
(ecg_data.std(axis=1, keepdims=True) + 1e-8)`: subtract the row's mean and
divide by its standard deviation plus epsilon. -/
noncomputable def nrow (row : List ℝ) : List ℝ :=
  row.map (fun x => (x - lmean row) / (lstd row + eps))

/-- `ecg_normalized` (main.py lines 156-159): the per-lead standardization,
broadcast row by row. -/
noncomputable def normalizeW (W : List (List ℝ)) : List (List ℝ) :=
  W.map nrow

/-- `np.max` of the full matrix, as a fold over the flattened list (numpy
requires a non-empty array; the `[]` case is unreachable on pipeline data). -/
noncomputable def lmax : List ℝ → ℝ
  | [] => 0
  | x :: t => t.foldl max x

/-- `np.min` of the full matrix. -/
noncomputable def lmin : List ℝ → ℝ
  | [] => 0
  | x :: t => t.foldl min x

/-- The dictionary returned by `calculate_ecg_stats`. -/
structure EcgStats where
  num_leads : Nat
  signal_length : Nat
  mean_amplitude : ℝ
  std_amplitude : ℝ
  max_amplitude : ℝ
  min_amplitude : ℝ

/-- `calculate_ecg_stats` (main.py lines 99-108): the two shape components
and four global scalars of the raw waveform, each computed over the whole
matrix (the flattened entry list), not per lead. -/
noncomputable def calculate_ecg_stats (W : List (List ℝ)) : EcgStats :=
  { num_leads := W.length
    signal_length := (W.headD []).length
    mean_amplitude := lmean W.flatten
    std_amplitude := lstd W.flatten
    max_amplitude := lmax W.flatten
    min_amplitude := lmin W.flatten }

/-! ## Lemmas about the validator -/

/-- The extension stage rejects exactly when no uploaded extension is
allowed, and its only possible rejection is `(400, extDetail)`. -/
lemma extension_check_eq_some (files : List UFile) (e : HErr) :
    extension_check files = some e ↔
      (e = (400, extDetail) ∧
        ∀ f ∈ files, strLower (pathSuffix f.filename) ∉ ALLOWED_EXTENSIONS) := by
  by_cases hB : ∀ f ∈ files, strLower (pathSuffix f.filename) ∉ ALLOWED_EXTENSIONS
  · have hany : ((files.map (fun f => strLower (pathSuffix f.filename))).any
        (fun e => decide (e ∈ ALLOWED_EXTENSIONS))) = false := by
      simp only [List.any_eq_false, List.mem_map, decide_eq_true_eq]
      rintro x ⟨f, hf, rfl⟩
      exact hB f hf
    have hall : ((ALLOWED_EXTENSIONS.all fun e =>
        decide (e ∈ files.map (fun f => strLower (pathSuffix f.filename))
          ++ files.map (fun f => strLower (pathSuffix f.filename))))) = false := by
      rw [Bool.eq_false_iff]
      intro hA
      rw [List.all_eq_true] at hA
      have hdat := hA ".dat" (by simp [ALLOWED_EXTENSIONS])
      rw [decide_eq_true_eq, List.mem_append] at hdat
      have hmem : (".dat" : String) ∈
          files.map (fun f => strLower (pathSuffix f.filename)) := by
        rcases hdat with h | h <;> exact h
      obtain ⟨f, hf, hfe⟩ := List.mem_map.mp hmem
      refine absurd ?_ (hB f hf)
      rw [hfe]
      simp [ALLOWED_EXTENSIONS]
    simp only [extension_check, hall, hany, Bool.not_false, if_true,
      Option.some_inj]
    constructor
    · intro h; exact ⟨h.symm, hB⟩
    · intro h; exact h.1.symm
  · push_neg at hB
    obtain ⟨f, hf, hmem⟩ := hB
    have hany : ((files.map (fun f => strLower (pathSuffix f.filename))).any
        (fun e => decide (e ∈ ALLOWED_EXTENSIONS))) = true := by
      simp only [List.any_eq_true, decide_eq_true_eq, List.mem_map]
      exact ⟨_, ⟨f, hf, rfl⟩, hmem⟩
    have : extension_check files = none := by
      simp only [extension_check, hany, Bool.not_true]
      split <;> rfl
    rw [this]
    constructor
    · intro h; cases h
    · rintro ⟨-, hall⟩
      exact absurd hmem (hall f hf)

/-- The empty-set stage can only raise `(400, "No files uploaded")`. -/
lemma empty_check_eq_some (files : List UFile) (e : HErr)
    (h : empty_check files = some e) :
    files = [] ∧ e = (400, "No files uploaded") := by
  simp only [empty_check] at h
  split at h
  · next hf => exact ⟨List.isEmpty_iff.mp hf, (Option.some_inj.mp h).symm⟩
  · cases h

/-- The size stage can only raise a 413, and does so exactly at the first
file of the list whose declared size is truthy and above the cap. -/
lemma size_check_eq_some (files : List UFile) (e : HErr)
    (h : size_check files = some e) :
    ∃ f, files.find? oversized = some f ∧ e = (413, sizeDetail f) := by
  simp only [size_check] at h
  split at h
  · next f hf => exact ⟨f, hf, (Option.some_inj.mp h).symm⟩
  · cases h

/-- Every rejection of `validate_files` is a 400 or a 413. -/
lemma validate_files_status (files : List UFile) (c : Nat) (d : String)
    (h : validate_files files = some (c, d)) : c = 400 ∨ c = 413 := by
  simp only [validate_files] at h
  cases he : empty_check files with
  | some e =>
      rw [he] at h
      obtain ⟨-, rfl⟩ := empty_check_eq_some files e he
      exact Or.inl (congrArg Prod.fst (Option.some_inj.mp h)).symm
  | none =>
      rw [he] at h
      cases hx : extension_check files with
      | some e =>
          rw [hx] at h
          obtain ⟨rfl, -⟩ := (extension_check_eq_some files e).mp hx
          exact Or.inl (congrArg Prod.fst (Option.some_inj.mp h)).symm
      | none =>
          rw [hx] at h
          obtain ⟨f, -, hef⟩ := size_check_eq_some files _ h
          exact Or.inr (congrArg Prod.fst hef)

/-- C4: the validator rejects on extension grounds (the 400 with the
"Please upload files with extensions" detail) if and only if the set is
non-empty and no uploaded filename's lower-cased extension belongs to
`{.dat, .hea}`; in particular the extension stage passes any set in which
some file carries one of the two expected extensions, even if the other
expected extension is absent. -/
theorem c4_extension_rejection_iff (files : List UFile) :
    (validate_files files = some (400, extDetail) ↔
      files ≠ [] ∧
        ∀ f ∈ files, strLower (pathSuffix f.filename) ∉ ALLOWED_EXTENSIONS) ∧
    (∀ f ∈ files, strLower (pathSuffix f.filename) ∈ ALLOWED_EXTENSIONS →
      extension_check files = none) := by
  constructor
  · constructor
    · intro h
      simp only [validate_files] at h
      cases he : empty_check files with
      | some e =>
          rw [he] at h
          obtain ⟨-, rfl⟩ := empty_check_eq_some files e he
          have hd : ("No files uploaded" : String) = extDetail :=
            congrArg Prod.snd (Option.some_inj.mp h)
          exact absurd hd (by decide)
      | none =>
          rw [he] at h
          have hne : files ≠ [] := by
            intro hnil
            simp [empty_check, hnil] at he
          cases hx : extension_check files with
          | some e =>
              rw [hx] at h
              rw [Option.some_inj.mp h] at hx
              obtain ⟨-, hall⟩ := (extension_check_eq_some files _).mp hx
              exact ⟨hne, hall⟩
          | none =>
              rw [hx] at h
              obtain ⟨f, -, hef⟩ := size_check_eq_some files _ h
              have h13 : (400 : Nat) = 413 := congrArg Prod.fst hef
              exact absurd h13 (by decide)
    · rintro ⟨hne, hall⟩
      have he : empty_check files = none := by
        simp [empty_check, List.isEmpty_iff, hne]
      have hx : extension_check files = some (400, extDetail) :=
        (extension_check_eq_some files _).mpr ⟨rfl, hall⟩
      simp [validate_files, he, hx]
  · intro f hf hmem
    cases hx : extension_check files with
    | none => rfl
    | some e =>
        obtain ⟨-, hall⟩ := (extension_check_eq_some files e).mp hx
        exact absurd hmem (hall f hf)

/-- C7 counterexample: a 20 MiB file named `x.txt` exceeds the 10 MiB cap,
yet validation fails with the 400 extension rejection (whose detail does
not name the file), not a 413 naming it — the extension stage runs before
the size loop. -/
theorem c7_counterexample :
    (20971520 > MAX_FILE_SIZE) ∧
    validate_files [⟨"x.txt", some 20971520, []⟩] = some (400, extDetail) := by
  exact ⟨by decide, by decide⟩

/-- C7 (amended): for every upload set that passes the emptiness and
extension stages and contains a file whose declared size is truthy and
exceeds the 10 MiB cap, validation fails with a 413 whose detail names the
first such file's filename. -/
theorem c7_oversized_yields_413 (files : List UFile) (f : UFile)
    (he : empty_check files = none)
    (hx : extension_check files = none)
    (hf : files.find? oversized = some f) :
    validate_files files = some (413, sizeDetail f) := by
  simp [validate_files, he, hx, size_check, hf]

/-- Witness for `c7_oversized_yields_413` at a concrete oversized upload. -/
theorem c7_oversized_yields_413_witness :
    empty_check [⟨"a.dat", some 20971520, []⟩] = none ∧
    extension_check [⟨"a.dat", some 20971520, []⟩] = none ∧
    List.find? oversized [⟨"a.dat", some 20971520, []⟩]
      = some ⟨"a.dat", some 20971520, []⟩ ∧
    validate_files [⟨"a.dat", some 20971520, []⟩]
      = some (413, sizeDetail ⟨"a.dat", some 20971520, []⟩) :=
  ⟨by decide, by decide, by decide,
    c7_oversized_yields_413 _ _ (by decide) (by decide) (by decide)⟩

/-- C10: a file whose declared `size` is `None` or `0` is Python-falsy, so
the `file.size and file.size > MAX_FILE_SIZE` guard is skipped for it; a
set of such files passes the size stage no matter how many bytes of actual
content each upload carries. -/
theorem c10_falsy_size_skips_cap (files : List UFile)
    (h : ∀ f ∈ files, f.size = none ∨ f.size = some 0) :
    (∀ f ∈ files, oversized f = false) ∧ size_check files = none := by
  have hover : ∀ f ∈ files, oversized f = false := by
    intro f hf
    rcases h f hf with hs | hs <;>
      simp [oversized, sizeTruthy, hs]
  refine ⟨hover, ?_⟩
  simp only [size_check]
  have : files.find? oversized = none := by
    rw [List.find?_eq_none]
    intro f hf
    simp [hover f hf]
  rw [this]

/-- Witness for `c10_falsy_size_skips_cap`: an upload with no declared size
but 12 bytes of content passes the size stage. -/
theorem c10_falsy_size_skips_cap_witness :
    (∀ f ∈ [(⟨"huge.dat", none, [1, 2, 3, 4, 5, 6, 7, 8, 9, 10, 11, 12]⟩ : UFile)],
        f.size = none ∨ f.size = some 0) ∧
    (∀ f ∈ [(⟨"huge.dat", none, [1, 2, 3, 4, 5, 6, 7, 8, 9, 10, 11, 12]⟩ : UFile)],
        oversized f = false) ∧
    size_check [⟨"huge.dat", none, [1, 2, 3, 4, 5, 6, 7, 8, 9, 10, 11, 12]⟩] = none :=
  ⟨by decide,
    (c10_falsy_size_skips_cap _ (by decide)).1,
    (c10_falsy_size_skips_cap _ (by decide)).2⟩

/-- C5: once a request passes validation and enters the staging scope, the
temporary directory (with every file written into it) is gone again by the
time the handler returns — on the success path and on both the reader- and
predict-failure paths, because the scope's release runs on exceptional
unwinding too.  The filesystem after the request equals the filesystem
before it. -/
theorem c5_tempdir_cleanup {W P S : Type} (files : List UFile)
    (readRecord : String → Except String W) (normalizeF : W → W)
    (predictF : W → Except String P) (statsF : W → S)
    (fs : List (List String))
    (hv : validate_files files = none) :
    (predict_ecg_file files readRecord normalizeF predictF statsF fs).2 = fs := by
  simp only [predict_ecg_file, hv]
  cases hr : readRecord (record_base files) with
  | error e => rfl
  | ok w =>
      cases hp : predictF (normalizeF w) with
      | error e => simp [hp]
      | ok p => simp [hp]

/-- Witness for `c5_tempdir_cleanup` on a concrete staged request. -/
theorem c5_tempdir_cleanup_witness :
    validate_files [⟨"rec.dat", some 100, [0]⟩] = none ∧
    (predict_ecg_file (W := Unit) (P := Unit) (S := Unit)
        [⟨"rec.dat", some 100, [0]⟩]
        (fun _ => Except.ok ()) id (fun _ => Except.ok ()) (fun _ => ()) []).2
      = [] :=
  ⟨by decide,
    c5_tempdir_cleanup _ _ _ _ _ _ (by decide)⟩

/-- C6: whenever the external reader raises, the validated request ends in
a client-facing 400 whose detail is `"Failed to read ECG files: "` followed
by the reader's original message (so the original text is carried), and the
status is never the 500 server fault. -/
theorem c6_reader_error_maps_to_400 {W P S : Type} (files : List UFile)
    (msg : String)
    (readRecord : String → Except String W) (normalizeF : W → W)
    (predictF : W → Except String P) (statsF : W → S)
    (fs : List (List String))
    (hv : validate_files files = none)
    (hr : readRecord (record_base files) = Except.error msg) :
    (predict_ecg_file files readRecord normalizeF predictF statsF fs).1
      = ApiResp.httpError 400 ("Failed to read ECG files: " ++ msg) ∧
    ApiResp.statusOf
        (predict_ecg_file files readRecord normalizeF predictF statsF fs).1 ≠ 500 := by
  have h : (predict_ecg_file files readRecord normalizeF predictF statsF fs).1
      = ApiResp.httpError 400 ("Failed to read ECG files: " ++ msg) := by
    simp [predict_ecg_file, hv, hr]
  refine ⟨h, ?_⟩
  rw [h]
  simp [ApiResp.statusOf]

/-- Witness for `c6_reader_error_maps_to_400` with a concrete corrupt
record. -/
theorem c6_reader_error_maps_to_400_witness :
    validate_files [⟨"rec.dat", some 100, [0]⟩] = none ∧
    ((predict_ecg_file (W := Unit) (P := Unit) (S := Unit)
        [⟨"rec.dat", some 100, [0]⟩]
        (fun _ => Except.error "bad header") id (fun _ => Except.ok ())
        (fun _ => ()) []).1
      = ApiResp.httpError 400 ("Failed to read ECG files: " ++ "bad header") ∧
    ApiResp.statusOf
        (predict_ecg_file (W := Unit) (P := Unit) (S := Unit)
          [⟨"rec.dat", some 100, [0]⟩]
          (fun _ => Except.error "bad header") id (fun _ => Except.ok ())
          (fun _ => ()) []).1 ≠ 500) :=
  ⟨by decide,
    c6_reader_error_maps_to_400 _ _ _ _ _ _ _ (by decide) rfl⟩

/-- C1 counterexample: stubbing the model to raise `"model exploded"` on a
validated, readable record yields a 500 whose detail is `"Internal server
error: model exploded"` — it embeds the raw exception text and is not the
fixed redacted message `"An unexpected error occurred"` (that message is
produced only by the app-level handler, which this route's own catch-all
prevents from firing). -/
theorem c1_counterexample :
    (predict_ecg_file (W := Unit) (P := Unit) (S := Unit)
        [⟨"a.dat", some 100, [0]⟩]
        (fun _ => Except.ok ()) id (fun _ => Except.error "model exploded")
        (fun _ => ()) []).1
      = ApiResp.httpError 500 ("Internal server error: " ++ "model exploded") ∧
    ("Internal server error: " ++ "model exploded" : String)
      ≠ "An unexpected error occurred" :=
  ⟨by decide, by decide⟩

/-- C1 (amended): an unexpected exception raised by the predict call on a
validated, readable request produces a 500 whose detail is `"Internal
server error: "` followed by the raw exception message; the fixed redacted
message appears only in the global handler's envelope, which this route
never reaches. -/
theorem c1_unexpected_error_detail {W P S : Type} (files : List UFile)
    (msg : String) (w : W)
    (readRecord : String → Except String W) (normalizeF : W → W)
    (statsF : W → S)
    (fs : List (List String))
    (hv : validate_files files = none)
    (hr : readRecord (record_base files) = Except.ok w) :
    (predict_ecg_file (P := P) files readRecord normalizeF
        (fun _ => Except.error msg) statsF fs).1
      = ApiResp.httpError 500 ("Internal server error: " ++ msg) ∧
    ApiResp.errorEnvelope (global_exception_handler (P := P) (S := S) msg)
      = some ⟨false, "Internal server error", "An unexpected error occurred"⟩ := by
  constructor
  · simp [predict_ecg_file, hv, hr]
  · rfl

/-- Witness for `c1_unexpected_error_detail` at a concrete request. -/
theorem c1_unexpected_error_detail_witness :
    validate_files [⟨"a.dat", some 100, [0]⟩] = none ∧
    ((predict_ecg_file (P := Unit) [⟨"a.dat", some 100, [0]⟩]
        (fun _ => Except.ok ()) id (fun _ => Except.error "model exploded")
        (fun _ => ()) []).1
      = ApiResp.httpError 500 ("Internal server error: " ++ "model exploded") ∧
    ApiResp.errorEnvelope
        (global_exception_handler (P := Unit) (S := Unit) "model exploded")
      = some ⟨false, "Internal server error", "An unexpected error occurred"⟩) :=
  ⟨by decide,
    c1_unexpected_error_detail _ _ () _ _ _ _ (by decide) rfl⟩

/-- C2 counterexample: the empty-upload failure (and every other
`HTTPException` path) is rendered by the framework's default handler with a
`detail` string only — the response carries no `success=false` flag and no
`error` category; only the global handler's envelope would. -/
theorem c2_counterexample :
    (predict_ecg_file (W := Unit) (P := Unit) (S := Unit) []
        (fun _ => Except.ok ()) id (fun _ => Except.ok ()) (fun _ => ()) []).1
      = ApiResp.httpError 400 "No files uploaded" ∧
    ApiResp.errorEnvelope
        ((predict_ecg_file (W := Unit) (P := Unit) (S := Unit) []
          (fun _ => Except.ok ()) id (fun _ => Except.ok ()) (fun _ => ()) []).1)
      = none :=
  ⟨by decide, by decide⟩

/-- C2 (amended): every failing request does carry a `detail` string and an
error status of at least 400, but as a detail-only `HTTPException`
rendering; the full `success=false` / `error` / `detail` envelope is
produced only by the global exception handler, for exceptions that escape
the route. -/
theorem c2_error_shape {W P S : Type} (files : List UFile)
    (readRecord : String → Except String W) (normalizeF : W → W)
    (predictF : W → Except String P) (statsF : W → S)
    (fs : List (List String))
    (h : ∀ (p : P) (s : S) (m : String),
      (predict_ecg_file files readRecord normalizeF predictF statsF fs).1
        ≠ ApiResp.ok p s m) :
    (∃ c d, (predict_ecg_file files readRecord normalizeF predictF statsF fs).1
        = ApiResp.httpError c d ∧ 400 ≤ c) ∧
    ∀ m : String,
      ApiResp.errorEnvelope (global_exception_handler (P := P) (S := S) m)
        = some ⟨false, "Internal server error", "An unexpected error occurred"⟩ := by
  refine ⟨?_, fun m => rfl⟩
  cases hval : validate_files files with
  | some e =>
      obtain ⟨c, d⟩ := e
      refine ⟨c, d, by simp [predict_ecg_file, hval], ?_⟩
      rcases validate_files_status files c d hval with rfl | rfl <;> norm_num
  | none =>
      cases hr : readRecord (record_base files) with
      | error e =>
          refine ⟨400, "Failed to read ECG files: " ++ e, ?_, by norm_num⟩
          simp [predict_ecg_file, hval, hr]
      | ok w =>
          cases hp : predictF (normalizeF w) with
          | error e =>
              refine ⟨500, "Internal server error: " ++ e, ?_, by norm_num⟩
              simp [predict_ecg_file, hval, hr, hp]
          | ok p =>
              exact absurd (by simp [predict_ecg_file, hval, hr, hp])
                (h p (statsF w) "ECG classification completed successfully")

/-- Witness for `c2_error_shape` at the concrete empty-upload failure. -/
theorem c2_error_shape_witness :
    (∀ (p : Unit) (s : Unit) (m : String),
      (predict_ecg_file (W := Unit) [] (fun _ => Except.ok ()) id
          (fun _ => Except.ok ()) (fun _ => ()) []).1 ≠ ApiResp.ok p s m) ∧
    ((∃ c d, (predict_ecg_file (W := Unit) [] (fun _ => Except.ok ()) id
          (fun _ => Except.ok ()) (fun _ => ()) []).1
        = ApiResp.httpError c d ∧ 400 ≤ c) ∧
    ∀ m : String,
      ApiResp.errorEnvelope (global_exception_handler (P := Unit) (S := Unit) m)
        = some ⟨false, "Internal server error", "An unexpected error occurred"⟩) :=
  ⟨fun p s m => by simp [predict_ecg_file, validate_files, empty_check],
    c2_error_shape _ _ _ _ _ _
      (fun p s m => by simp [predict_ecg_file, validate_files, empty_check])⟩

/-! ## Lemmas about the numeric layer -/

/-- Summing a list shifted by a constant. -/
lemma sum_map_sub_const (xs : List ℝ) (a : ℝ) :
    (xs.map (fun x => x - a)).sum = xs.sum - xs.length * a := by
  induction xs with
  | nil => simp
  | cons x t ih =>
      simp only [List.map_cons, List.sum_cons, List.length_cons, ih]
      push_cast
      ring

/-- A non-empty list's sum is its length times its mean. -/
lemma sum_eq_length_mul_lmean (xs : List ℝ) :
    xs.sum = xs.length * lmean xs ∨ xs = [] := by
  cases xs with
  | nil => exact Or.inr rfl
  | cons x t =>
      left
      have hn0 : (x :: t).length ≠ 0 := by simp
      have hn : ((x :: t).length : ℝ) ≠ 0 := Nat.cast_ne_zero.mpr hn0
      rw [lmean, mul_comm, div_mul_cancel₀ _ hn]

/-- The centred sum of any list vanishes. -/
lemma sum_map_sub_lmean (xs : List ℝ) :
    (xs.map (fun x => x - lmean xs)).sum = 0 := by
  rw [sum_map_sub_const]
  rcases sum_eq_length_mul_lmean xs with h | h
  · rw [← h, sub_self]
  · simp [h, lmean]

/-- The normalization denominator is strictly positive: the standard
deviation is a square root, hence non-negative, and the epsilon is
positive. -/
lemma lstd_add_eps_pos (xs : List ℝ) : 0 < lstd xs + eps := by
  have h1 : 0 ≤ lstd xs := Real.sqrt_nonneg _
  have h2 : (0 : ℝ) < eps := by
    rw [eps]
    norm_num
  linarith

/-- A normalized row has mean exactly zero. -/
lemma lmean_nrow (row : List ℝ) : lmean (nrow row) = 0 := by
  have hrw : nrow row
      = row.map (fun x => (x - lmean row) * (lstd row + eps)⁻¹) := by
    simp [nrow, div_eq_mul_inv]
  rw [lmean, hrw, List.sum_map_mul_right, sum_map_sub_lmean, zero_mul, zero_div]

/-- The mean of the squared entries of a row is non-negative. -/
lemma lmean_sq_nonneg (xs : List ℝ) (f : ℝ → ℝ) :
    0 ≤ lmean (xs.map (fun x => (f x) ^ 2)) := by
  apply div_nonneg
  · apply List.sum_nonneg
    intro x hx
    obtain ⟨y, -, rfl⟩ := List.mem_map.mp hx
    exact sq_nonneg _
  · positivity

/-- A normalized row's standard deviation is the raw deviation scaled by
the epsilon-padded denominator: zero for a constant row, slightly below one
otherwise. -/
lemma lstd_nrow (row : List ℝ) :
    lstd (nrow row) = lstd row / (lstd row + eps) := by
  have hc : 0 < lstd row + eps := lstd_add_eps_pos row
  have hm : lmean (nrow row) = 0 := lmean_nrow row
  have hsq : (nrow row).map (fun y => (y - lmean (nrow row)) ^ 2)
      = row.map (fun x =>
          ((x - lmean row) ^ 2) * ((lstd row + eps) ^ 2)⁻¹) := by
    rw [hm, nrow, List.map_map]
    apply List.map_congr_left
    intro x hx
    simp only [Function.comp_apply]
    rw [sub_zero, div_pow, div_eq_mul_inv]
  have hv : 0 ≤ lmean (row.map (fun x => (x - lmean row) ^ 2)) :=
    lmean_sq_nonneg row _
  have key : lmean ((nrow row).map (fun y => (y - lmean (nrow row)) ^ 2))
      = lmean (row.map (fun x => (x - lmean row) ^ 2)) / (lstd row + eps) ^ 2 := by
    rw [hsq]
    unfold lmean
    rw [List.sum_map_mul_right]
    simp only [List.length_map]
    ring
  calc lstd (nrow row)
      = Real.sqrt (lmean ((nrow row).map (fun y => (y - lmean (nrow row)) ^ 2))) := rfl
    _ = Real.sqrt (lmean (row.map (fun x => (x - lmean row) ^ 2))
          / (lstd row + eps) ^ 2) := by rw [key]
    _ = Real.sqrt (lmean (row.map (fun x => (x - lmean row) ^ 2)))
          / Real.sqrt ((lstd row + eps) ^ 2) := Real.sqrt_div hv _
    _ = lstd row / (lstd row + eps) := by
          rw [Real.sqrt_sq hc.le, lstd]

/-- C3 counterexample: the constant lead `[5, 5]` normalizes to `[0, 0]`,
whose standard deviation is `0`, not approximately `1` — no tolerance below
`1` makes the claimed "std ≈ 1" true on a flat lead (the epsilon prevents
division by zero but makes the output identically zero instead). -/
theorem c3_counterexample :
    nrow [(5 : ℝ), 5] = [0, 0] ∧
    lstd (nrow [(5 : ℝ), 5]) = 0 ∧
    ¬ (|lstd (nrow [(5 : ℝ), 5]) - 1| ≤ 1 / 2) := by
  have hm : lmean [(5 : ℝ), 5] = 5 := by
    norm_num [lmean, List.sum_cons, List.sum_nil]
  have hs : lstd [(5 : ℝ), 5] = 0 := by
    rw [lstd]
    rw [show List.map (fun x => (x - lmean [(5 : ℝ), 5]) ^ 2) [(5 : ℝ), 5]
        = [0, 0] by rw [hm]; norm_num]
    rw [show lmean [(0 : ℝ), 0] = 0 by norm_num [lmean, List.sum_cons, List.sum_nil]]
    exact Real.sqrt_zero
  have h0 : nrow [(5 : ℝ), 5] = [0, 0] := by
    simp [nrow, hm]
  have h1 : lstd (nrow [(5 : ℝ), 5]) = 0 := by
    rw [lstd_nrow, hs, zero_div]
  refine ⟨h0, h1, ?_⟩
  rw [h1]
  norm_num

/-- C3 (amended): each row of the normalized output has mean exactly `0`;
its standard deviation equals `lstd row / (lstd row + 1e-8)` — which is `0`
for a constant row and strictly below (though near) `1` otherwise — and the
epsilon keeps the denominator strictly positive, so no division by zero
occurs. -/
theorem c3_normalized_row_moments (W : List (List ℝ)) (row : List ℝ)
    (hrow : row ∈ W) :
    nrow row ∈ normalizeW W ∧
    lmean (nrow row) = 0 ∧
    lstd (nrow row) = lstd row / (lstd row + eps) ∧
    0 < lstd row + eps :=
  ⟨List.mem_map_of_mem _ hrow, lmean_nrow row, lstd_nrow row,
    lstd_add_eps_pos row⟩

/-- Witness for `c3_normalized_row_moments` on the concrete lead `[1, 2]`. -/
theorem c3_normalized_row_moments_witness :
    [(1 : ℝ), 2] ∈ [[(1 : ℝ), 2]] ∧
    (nrow [(1 : ℝ), 2] ∈ normalizeW [[(1 : ℝ), 2]] ∧
     lmean (nrow [(1 : ℝ), 2]) = 0 ∧
     lstd (nrow [(1 : ℝ), 2]) = lstd [(1 : ℝ), 2] / (lstd [(1 : ℝ), 2] + eps) ∧
     0 < lstd [(1 : ℝ), 2] + eps) :=
  ⟨by simp, c3_normalized_row_moments _ _ (by simp)⟩

/-- C8: the normalizer preserves the waveform's shape (same number of
leads, same per-lead sample count) and each entry equals
`(value - row mean) / (row std + epsilon)` with the epsilon fixed at
exactly `1e-8`. -/
theorem c8_normalizer_formula (W : List (List ℝ)) (i j : Nat)
    (hi : i < W.length) (hj : j < (W.getD i []).length) :
    (normalizeW W).length = W.length ∧
    ((normalizeW W).getD i []).length = (W.getD i []).length ∧
    ((normalizeW W).getD i []).getD j 0
      = ((W.getD i []).getD j 0 - lmean (W.getD i []))
          / (lstd (W.getD i []) + eps) ∧
    eps = 1 / 100000000 := by
  have hget : (normalizeW W).getD i [] = nrow (W.getD i []) := by
    rw [normalizeW, List.getD_eq_getElem?_getD, List.getD_eq_getElem?_getD,
      List.getElem?_map]
    cases h : W[i]? <;> simp [nrow]
  refine ⟨by simp [normalizeW], ?_, ?_, ?_⟩
  · rw [hget]
    simp [nrow]
  · rw [hget, nrow, List.getD_eq_getElem?_getD, List.getElem?_map,
      List.getElem?_eq_getElem hj, List.getD_eq_getElem _ _ hj]
    rfl
  · rw [eps]
    norm_num

/-- Witness for `c8_normalizer_formula` at entry `(0, 1)` of `[[1, 3]]`. -/
theorem c8_normalizer_formula_witness :
    0 < ([[(1 : ℝ), 3]] : List (List ℝ)).length ∧
    1 < (([[(1 : ℝ), 3]] : List (List ℝ)).getD 0 []).length ∧
    ((normalizeW [[(1 : ℝ), 3]]).length = ([[(1 : ℝ), 3]] : List (List ℝ)).length ∧
     ((normalizeW [[(1 : ℝ), 3]]).getD 0 []).length
        = (([[(1 : ℝ), 3]] : List (List ℝ)).getD 0 []).length ∧
     ((normalizeW [[(1 : ℝ), 3]]).getD 0 []).getD 1 0
        = ((([[(1 : ℝ), 3]] : List (List ℝ)).getD 0 []).getD 1 0
              - lmean (([[(1 : ℝ), 3]] : List (List ℝ)).getD 0 []))
            / (lstd (([[(1 : ℝ), 3]] : List (List ℝ)).getD 0 []) + eps) ∧
     eps = 1 / 100000000) :=
  ⟨by simp, by simp, c8_normalizer_formula _ 0 1 (by simp) (by simp)⟩

/-- The seed of a max-fold is a lower bound of the result. -/
lemma le_foldl_max (t : List ℝ) (a : ℝ) : a ≤ t.foldl max a := by
  induction t generalizing a with
  | nil => exact le_refl a
  | cons b t ih => exact le_trans (le_max_left a b) (ih (max a b))

/-- Every member of the list is below the max-fold. -/
lemma mem_le_foldl_max (t : List ℝ) (a x : ℝ) (hx : x ∈ t) :
    x ≤ t.foldl max a := by
  induction t generalizing a with
  | nil => cases hx
  | cons b t ih =>
      rcases List.mem_cons.mp hx with rfl | hx'
      · exact le_trans (le_max_right a x) (le_foldl_max t (max a x))
      · exact ih (max a b) hx'

/-- Every member of a list is at most its `lmax`. -/
lemma le_lmax (xs : List ℝ) (x : ℝ) (hx : x ∈ xs) : x ≤ lmax xs := by
  cases xs with
  | nil => cases hx
  | cons y t =>
      rcases List.mem_cons.mp hx with rfl | hx'
      · exact le_foldl_max t x
      · exact mem_le_foldl_max t y x hx'

/-- The seed of a min-fold is an upper bound of the result. -/
lemma foldl_min_le (t : List ℝ) (a : ℝ) : t.foldl min a ≤ a := by
  induction t generalizing a with
  | nil => exact le_refl a
  | cons b t ih => exact le_trans (ih (min a b)) (min_le_left a b)

/-- Every member of the list is above the min-fold. -/
lemma foldl_min_le_mem (t : List ℝ) (a x : ℝ) (hx : x ∈ t) :
    t.foldl min a ≤ x := by
  induction t generalizing a with
  | nil => cases hx
  | cons b t ih =>
      rcases List.mem_cons.mp hx with rfl | hx'
      · exact le_trans (foldl_min_le t (min a x)) (min_le_right a x)
      · exact ih (min a b) hx'

/-- `lmin` is at most every member of the list. -/
lemma lmin_le (xs : List ℝ) (x : ℝ) (hx : x ∈ xs) : lmin xs ≤ x := by
  cases xs with
  | nil => cases hx
  | cons y t =>
      rcases List.mem_cons.mp hx with rfl | hx'
      · exact foldl_min_le t x
      · exact foldl_min_le_mem t y x hx'

/-- On a non-empty list the mean is at most the maximum. -/
lemma lmean_le_lmax (xs : List ℝ) (h : xs ≠ []) : lmean xs ≤ lmax xs := by
  have hsum : xs.sum ≤ xs.length • lmax xs :=
    List.sum_le_card_nsmul xs (lmax xs) (fun x hx => le_lmax xs x hx)
  rw [nsmul_eq_mul] at hsum
  have hn : 0 < (xs.length : ℝ) := by
    exact_mod_cast List.length_pos.mpr h
  rw [lmean, div_le_iff₀ hn]
  linarith

/-- On a non-empty list the minimum is at most the mean. -/
lemma lmin_le_lmean (xs : List ℝ) (h : xs ≠ []) : lmin xs ≤ lmean xs := by
  have hsum : xs.length • lmin xs ≤ xs.sum :=
    List.card_nsmul_le_sum xs (lmin xs) (fun x hx => lmin_le xs x hx)
  rw [nsmul_eq_mul] at hsum
  have hn : 0 < (xs.length : ℝ) := by
    exact_mod_cast List.length_pos.mpr h
  rw [lmean, le_div_iff₀ hn]
  linarith

/-- C9: on a non-empty rectangular waveform, the statistics calculator
reports the exact shape (`num_leads`, `signal_length` are the two
dimensions), its global scalars satisfy `min ≤ mean ≤ max` and `std ≥ 0`,
and all four scalars are computed over the flattened full matrix, not per
lead. -/
theorem c9_stats_contract (W : List (List ℝ)) (r c : Nat)
    (hlen : W.length = r) (hrect : ∀ row ∈ W, row.length = c)
    (hr : 0 < r) (hc : 0 < c) :
    (calculate_ecg_stats W).num_leads = r ∧
    (calculate_ecg_stats W).signal_length = c ∧
    (calculate_ecg_stats W).min_amplitude
      ≤ (calculate_ecg_stats W).mean_amplitude ∧
    (calculate_ecg_stats W).mean_amplitude
      ≤ (calculate_ecg_stats W).max_amplitude ∧
    0 ≤ (calculate_ecg_stats W).std_amplitude := by
  obtain ⟨w, t, rfl⟩ : ∃ w t, W = w :: t := by
    cases W with
    | nil =>
        rw [List.length_nil] at hlen
        omega
    | cons w t => exact ⟨w, t, rfl⟩
  have hw : w.length = c := hrect w (List.mem_cons_self w t)
  have hflat : (w :: t).flatten ≠ [] := by
    apply List.length_pos.mp
    rw [List.length_flatten]
    simp only [List.map_cons, List.sum_cons]
    omega
  refine ⟨hlen, ?_, ?_, ?_, ?_⟩
  · simpa [calculate_ecg_stats] using hw
  · exact lmin_le_lmean _ hflat
  · exact lmean_le_lmax _ hflat
  · exact Real.sqrt_nonneg _

/-- Witness for `c9_stats_contract` on the 1-lead, 2-sample matrix
`[[1, 2]]`. -/
theorem c9_stats_contract_witness :
    ([[(1 : ℝ), 2]] : List (List ℝ)).length = 1 ∧
    (∀ row ∈ ([[(1 : ℝ), 2]] : List (List ℝ)), row.length = 2) ∧
    0 < 1 ∧ 0 < 2 ∧
    ((calculate_ecg_stats [[(1 : ℝ), 2]]).num_leads = 1 ∧
     (calculate_ecg_stats [[(1 : ℝ), 2]]).signal_length = 2 ∧
     (calculate_ecg_stats [[(1 : ℝ), 2]]).min_amplitude
        ≤ (calculate_ecg_stats [[(1 : ℝ), 2]]).mean_amplitude ∧
     (calculate_ecg_stats [[(1 : ℝ), 2]]).mean_amplitude
        ≤ (calculate_ecg_stats [[(1 : ℝ), 2]]).max_amplitude ∧
     0 ≤ (calculate_ecg_stats [[(1 : ℝ), 2]]).std_amplitude) :=
  ⟨by simp, by simp, Nat.zero_lt_one, Nat.zero_lt_two,
    c9_stats_contract _ 1 2 (by simp) (by simp) Nat.zero_lt_one Nat.zero_lt_two⟩

/-- Witness for `c4_extension_rejection_iff` on a one-file set carrying
only the `.dat` extension: the instantiated equivalence and the pass of the
extension stage. -/
theorem c4_extension_rejection_iff_witness :
    (validate_files [⟨"only.dat", some 5, []⟩] = some (400, extDetail) ↔
      [(⟨"only.dat", some 5, []⟩ : UFile)] ≠ [] ∧
        ∀ f ∈ [(⟨"only.dat", some 5, []⟩ : UFile)],
          strLower (pathSuffix f.filename) ∉ ALLOWED_EXTENSIONS) ∧
    (∀ f ∈ [(⟨"only.dat", some 5, []⟩ : UFile)],
      strLower (pathSuffix f.filename) ∈ ALLOWED_EXTENSIONS →
      extension_check [(⟨"only.dat", some 5, []⟩ : UFile)] = none) :=
  c4_extension_rejection_iff [⟨"only.dat", some 5, []⟩]
